import Mathlib

/-!
Shallow embedding of `src/pid_hover.py` (spakett/crazyflie-hover).

Python floats are modelled as rationals (`ℚ`); Python `int()` applied to a
float truncates toward zero and is modelled by `pyInt`.  The asynchronous
telemetry globals (`average_altitude`, `current_altitude`, `current_thrust`)
are modelled as arbitrary functions of the tick index, so every theorem
quantifying over them holds for every possible telemetry arrival pattern.
-/

/-- Python `int()` truncation toward zero of a rational. -/
def pyInt (q : ℚ) : ℤ := q.num.tdiv (q.den : ℤ)

/-- Global `step_time = 0.01` (line 21). -/
def step_time : ℚ := 0.01

/-- Constant `base_thrust = 38250` (line 143). -/
def base_thrust : ℚ := 38250

/-- Constant `ku = 16000` (line 126). -/
def ku : ℚ := 16000

/-- Constant `tu = 3.116` (line 127). -/
def tu : ℚ := 3.116

/-- Value `ti = 0.5 * tu` (line 129). -/
def ti : ℚ := 0.5 * tu

/-- Value `td = 0.125 * tu` (line 130). -/
def td : ℚ := 0.125 * tu

/-- Gain `kp = 0.6 * ku` (line 132). -/
def kp : ℚ := 0.6 * ku

/-- Gain `ki = 0.7 * (ku / ti)` (lines 133 and 136). -/
def ki : ℚ := 0.7 * (ku / ti)

/-- Gain `kd = 0.7 * (ku * td)` (lines 134 and 137). -/
def kd : ℚ := 0.7 * (ku * td)

/-- The three PID gains (the spec's `GainSet`). -/
structure GainSet where
  gp : ℚ
  gi : ℚ
  gd : ℚ
deriving DecidableEq

/-- The gain computation of lines 129-137, parameterized over the tuning pair
`(ku, tu)` exactly as the code computes it.  Python raises a
`ZeroDivisionError` at `ku / ti` when `ti == 0`; that fault is modelled by
`none`.  No other input is rejected: the code contains no guard on `tu`. -/
def derive (kuArg tuArg : ℚ) : Option GainSet :=
  let tiv := 0.5 * tuArg
  let tdv := 0.125 * tuArg
  if tiv = 0 then none
  else some ⟨0.6 * kuArg, 0.7 * (kuArg / tiv), 0.7 * (kuArg * tdv)⟩

/-- The gain set the program actually runs with. -/
def programGains : GainSet := ⟨kp, ki, kd⟩

/-- The controller state mutated once per tick: `integral` (line 141) and
`prev_error` (line 142). -/
structure PidState where
  integral : ℚ
  prevError : ℚ
deriving DecidableEq

/-- One PID tick, lines 148-154 of `_hover`:
error, proportional, integral accumulation, derivative, sum with the base
thrust, and the clamp `max(min(output, 60000), 0)`. -/
def pidStep (g : GainSet) (dt base target measured : ℚ) (s : PidState) :
    ℚ × PidState :=
  let error := target - measured
  let proportional := g.gp * error
  let integral := s.integral + g.gi * error * dt
  let derivative := g.gd * (error - s.prevError) / dt
  let raw := base + proportional + integral + derivative
  let output := max (min raw 60000) 0
  (output, ⟨integral, error⟩)

/-- One iteration of the hovering `for` loop (lines 147-159): run the PID
tick on the current smoothed altitude `meas i`, remember the commanded
output, and append `[output, current_thrust, current_altitude, error]`
to `flight_data`.  The accumulator is
(last commanded output if any, controller state, flight record). -/
def hoverTick (g : GainSet) (dt base target : ℚ) (meas thr alt : ℕ → ℚ)
    (acc : Option ℚ × PidState × List (ℚ × ℚ × ℚ × ℚ)) (i : ℕ) :
    Option ℚ × PidState × List (ℚ × ℚ × ℚ × ℚ) :=
  let r := pidStep g dt base target (meas i) acc.2.1
  (some r.1, r.2, acc.2.2 ++ [(r.1, thr i, alt i, target - meas i)])

/-- The hovering loop run for `n` ticks starting from `integral = 0`,
`prev_error = 0`, an empty `flight_data`, and no commanded output yet
(in Python the variable `output` is simply unbound before the loop body
first runs, hence the `Option`). -/
def hoverRun (g : GainSet) (dt base target : ℚ) (meas thr alt : ℕ → ℚ)
    (n : ℕ) : Option ℚ × PidState × List (ℚ × ℚ × ℚ × ℚ) :=
  (List.range n).foldl (hoverTick g dt base target meas thr alt)
    (none, ⟨0, 0⟩, [])

/-- Count `range(int(operation_time / step_time))` (line 144): the number of
hovering ticks as a function of the configuration only. -/
def hoverTicks (opTime : ℤ) (st : ℚ) : ℕ := (pyInt ((opTime : ℚ) / st)).toNat

/-- List `flight_data` at the end of the program, for the program's own gains,
step time and base thrust.  Nothing after line 159 appends to it. -/
def flightRecord (target : ℚ) (opTime : ℤ) (meas thr alt : ℕ → ℚ) :
    List (ℚ × ℚ × ℚ × ℚ) :=
  (hoverRun programGains step_time base_thrust target meas thr alt
    (hoverTicks opTime step_time)).2.2

/-- The commanded output carried out of the hovering loop (the value the
landing loop starts from), `none` when the loop ran zero ticks and `output`
is unbound. -/
def hoverFinal (target : ℚ) (opTime : ℤ) (meas thr alt : ℕ → ℚ) : Option ℚ :=
  (hoverRun programGains step_time base_thrust target meas thr alt
    (hoverTicks opTime step_time)).1

/-- The landing `while` loop (lines 162-165): while `output > 20000`,
decrement by 75 and send.  The list collects the successive values of
`output` at each send (the wire command is `int(output)`). -/
def landingSends (v : ℚ) : List ℚ :=
  if h : 20000 < v then (v - 75) :: landingSends (v - 75) else []
termination_by (⌈(v - 20000) / 75⌉).toNat
decreasing_by
  have h0 : (0 : ℚ) < (v - 20000) / 75 := by
    apply div_pos (by linarith) (by norm_num)
  have h1 : (0 : ℤ) < ⌈(v - 20000) / 75⌉ := Int.ceil_pos.mpr h0
  have h2 : (v - 75 - 20000) / 75 = (v - 20000) / 75 - 1 := by ring
  rw [h2, Int.ceil_sub_one]
  omega

/-- The number of landing sends predicted from the starting output value:
`⌈(v - 20000) / 75⌉` when `v` is above the floor, else zero. -/
def landingCount (v : ℚ) : ℕ :=
  if 20000 < v then (⌈(v - 20000) / 75⌉).toNat else 0

/-- The observable outcome of one complete flight: the flight record and
the landing-phase commands, plus the output value hovering handed to
landing. -/
structure FlightOutcome where
  record : List (ℚ × ℚ × ℚ × ℚ)
  landingCommands : List ℚ
  finalHoverOutput : ℚ
deriving DecidableEq

/-- The whole `_hover` flow after the unlock command: hovering, then the
landing ramp.  `none` models the `NameError` Python raises at
`while output > 20000` when the hovering loop ran zero ticks and `output`
was never assigned. -/
def runFlight (target : ℚ) (opTime : ℤ) (meas thr alt : ℕ → ℚ) :
    Option FlightOutcome :=
  match hoverFinal target opTime meas thr alt with
  | none => none
  | some v => some ⟨flightRecord target opTime meas thr alt, landingSends v, v⟩

/-- Initial `altitude_history = [0, 0, 0, 0, 0]` (line 20). -/
def altitude_history0 : List ℚ := [0, 0, 0, 0, 0]

/-- One telemetry arrival (lines 77-78): `altitude_history.pop(0)` followed
by `altitude_history.append(new)`. -/
def pushSample (w : List ℚ) (x : ℚ) : List ℚ := w.tail ++ [x]

/-- The smoothing window after a whole sequence of telemetry arrivals,
starting from the initial zeros. -/
def runSmoother (xs : List ℚ) : List ℚ := xs.foldl pushSample altitude_history0

/-- Model of `numpy.mean` of a list: sum divided by length. -/
def npMean (l : List ℚ) : ℚ := l.sum / l.length

/-- Global `average_altitude` after a sequence of arrivals (line 81). -/
def averageAfter (xs : List ℚ) : ℚ := npMean (runSmoother xs)

/-- The constant-zero telemetry stream, used to instantiate theorems. -/
def zTel : ℕ → ℚ := fun _ => 0

/-- Model of Python's `int(str)` (line 201): an optional sign followed by at
least one decimal digit; anything else raises `ValueError` (`none`).
Whitespace and underscore separators accepted by CPython are not modelled. -/
def digitsToNat (l : List Char) : ℕ := l.foldl (fun a c => 10 * a + (c.toNat - 48)) 0

/-- Every character is a decimal digit. -/
def allDigits (l : List Char) : Bool := l.all Char.isDigit

/-- Magnitude part of `int(str)`. -/
def pyParseIntMag (l : List Char) : Option ℤ :=
  if !l.isEmpty && allDigits l then some (digitsToNat l : ℤ) else none

/-- Parse of `int(args[1])` (line 201). -/
def pyParseInt (s : String) : Option ℤ :=
  match s.data with
  | '-' :: l => (pyParseIntMag l).map Neg.neg
  | '+' :: l => pyParseIntMag l
  | l => pyParseIntMag l

/-- Magnitude part of `float(str)` (line 199): digits with an optional
decimal point, at least one digit overall.  Exponent, `inf` and `nan`
forms accepted by CPython are not modelled. -/
def pyParseFloatMag (l : List Char) : Option ℚ :=
  match l.span (fun c => c ≠ '.') with
  | (ip, []) =>
    if !ip.isEmpty && allDigits ip then some (digitsToNat ip : ℚ) else none
  | (ip, _ :: fp) =>
    if allDigits ip && allDigits fp && (!ip.isEmpty || !fp.isEmpty) then
      some ((digitsToNat ip : ℚ) + (digitsToNat fp : ℚ) / 10 ^ fp.length)
    else none

/-- Parse of `float(args[0])` (line 199). -/
def pyParseFloat (s : String) : Option ℚ :=
  match s.data with
  | '-' :: l => (pyParseFloatMag l).map Neg.neg
  | '+' :: l => pyParseFloatMag l
  | l => pyParseFloatMag l

/-- The observable behaviour of `main` (lines 189-207). -/
inductive MainResult where
  | badArgsExit
  | valueErrorCrash
  | flightStarted (target : ℚ) (opTime : ℤ)
deriving DecidableEq

/-- Model of `main` (lines 189-207): with an argument count other than two it prints
`Bad arguments! Exit.` and returns (the process then exits with status 0);
with two arguments that fail `float`/`int` parsing the uncaught
`ValueError` aborts the process (status 1); otherwise it initializes the
drivers and opens the link. -/
def pyMain (args : List String) : MainResult :=
  match args with
  | [a0, a1] =>
    match pyParseFloat a0 with
    | none => .valueErrorCrash
    | some t =>
      match pyParseInt a1 with
      | none => .valueErrorCrash
      | some n => .flightStarted t n
  | _ => .badArgsExit

/-- Process exit status for each outcome of `main`. -/
def exitCode : MainResult → ℕ
  | .badArgsExit => 0
  | .valueErrorCrash => 1
  | .flightStarted _ _ => 0

/-- Whether `main` reached `HoverPid(uri)` and opened the link (line 207). -/
def connectionOpened : MainResult → Bool
  | .flightStarted _ _ => true
  | _ => false

/-- Whether an error is surfaced to the user (the printed message on a bad
argument count, or the `ValueError` traceback). -/
def reportsError : MainResult → Bool
  | .badArgsExit => true
  | .valueErrorCrash => true
  | .flightStarted _ _ => false

/-- A malformed invocation: not two positional arguments parseable as a
float and an integer. -/
def malformedArgs (args : List String) : Bool :=
  match args with
  | [a0, a1] => (pyParseFloat a0).isNone || (pyParseInt a1).isNone
  | _ => true

/-! ### Helper lemmas -/

theorem pyInt_intCast (n : ℤ) : pyInt (n : ℚ) = n := by
  simp [pyInt, Rat.num_intCast, Rat.den_intCast]

theorem pyInt_nonneg_floor (q : ℚ) (h : 0 ≤ q) : pyInt q = ⌊q⌋ := by
  rw [pyInt, Rat.floor_def]
  exact Int.tdiv_eq_ediv (Rat.num_nonneg.mpr h) (by positivity)

theorem hoverTicks_ten : hoverTicks 10 step_time = 1000 := by
  have h : ((10 : ℤ) : ℚ) / step_time = ((1000 : ℤ) : ℚ) := by
    norm_num [step_time]
  rw [hoverTicks, h, pyInt_intCast]
  rfl

theorem hoverTicks_one : hoverTicks 1 step_time = 100 := by
  have h : ((1 : ℤ) : ℚ) / step_time = ((100 : ℤ) : ℚ) := by
    norm_num [step_time]
  rw [hoverTicks, h, pyInt_intCast]
  rfl

theorem landingCount_38250 : landingCount 38250 = 244 := by
  rw [landingCount, if_pos (by norm_num)]
  have h : ⌈((38250 : ℚ) - 20000) / 75⌉ = 244 := by
    rw [Int.ceil_eq_iff]
    constructor <;> norm_num
  rw [h]
  rfl

theorem foldl_hoverTick_length (g : GainSet) (dt base target : ℚ)
    (meas thr alt : ℕ → ℚ) (l : List ℕ) :
    ∀ acc, ((l.foldl (hoverTick g dt base target meas thr alt) acc)).2.2.length
      = acc.2.2.length + l.length := by
  induction l with
  | nil => intro acc; simp
  | cons i l ih =>
    intro acc
    rw [List.foldl_cons, ih]
    simp [hoverTick]
    omega

theorem hoverRun_record_length (g : GainSet) (dt base target : ℚ)
    (meas thr alt : ℕ → ℚ) (n : ℕ) :
    (hoverRun g dt base target meas thr alt n).2.2.length = n := by
  rw [hoverRun, foldl_hoverTick_length]
  simp

theorem pidStep_zero_error (g : GainSet) (dt base target : ℚ) :
    pidStep g dt base target target ⟨0, 0⟩ = (max (min base 60000) 0, ⟨0, 0⟩) := by
  simp [pidStep]

theorem foldl_hoverTick_zero_error (g : GainSet) (dt base target : ℚ)
    (thr alt : ℕ → ℚ) (l : List ℕ) :
    ∀ acc, acc.2.1 = (⟨0, 0⟩ : PidState) →
      (l.foldl (hoverTick g dt base target (fun _ => target) thr alt) acc).2.1
          = (⟨0, 0⟩ : PidState)
      ∧ (∀ r ∈ (l.foldl (hoverTick g dt base target (fun _ => target) thr alt)
            acc).2.2,
          r.1 = max (min base 60000) 0 ∨ r ∈ acc.2.2)
      ∧ (l ≠ [] →
          (l.foldl (hoverTick g dt base target (fun _ => target) thr alt) acc).1
            = some (max (min base 60000) 0)) := by
  induction l with
  | nil =>
    intro acc h
    exact ⟨h, fun r hr => Or.inr hr, fun hne => absurd rfl hne⟩
  | cons i l ih =>
    intro acc h
    rw [List.foldl_cons]
    have htick : hoverTick g dt base target (fun _ => target) thr alt acc i
        = (some (max (min base 60000) 0), ⟨0, 0⟩,
            acc.2.2 ++ [(max (min base 60000) 0, thr i, alt i, target - target)]) := by
      rw [hoverTick, h, pidStep_zero_error]
    obtain ⟨h1, h2, h3⟩ := ih (hoverTick g dt base target (fun _ => target) thr alt acc i)
      (by rw [htick])
    refine ⟨h1, ?_, ?_⟩
    · intro r hr
      rcases h2 r hr with hc | hc
      · exact Or.inl hc
      · rw [htick] at hc
        rcases List.mem_append.mp hc with hm | hm
        · exact Or.inr hm
        · left
          rcases List.mem_singleton.mp hm with rfl
          rfl
    · intro _
      by_cases hl : l = []
      · subst hl; rw [List.foldl_nil, htick]
      · exact h3 hl

theorem hoverRun_zero_error (g : GainSet) (dt base target : ℚ)
    (thr alt : ℕ → ℚ) (n : ℕ) :
    (hoverRun g dt base target (fun _ => target) thr alt n).2.1
        = (⟨0, 0⟩ : PidState)
    ∧ (∀ r ∈ (hoverRun g dt base target (fun _ => target) thr alt n).2.2,
        r.1 = max (min base 60000) 0)
    ∧ (n ≠ 0 →
        (hoverRun g dt base target (fun _ => target) thr alt n).1
          = some (max (min base 60000) 0)) := by
  obtain ⟨h1, h2, h3⟩ :=
    foldl_hoverTick_zero_error g dt base target thr alt (List.range n)
      (none, ⟨0, 0⟩, []) rfl
  refine ⟨h1, ?_, ?_⟩
  · intro r hr
    rcases h2 r hr with hc | hc
    · exact hc
    · simp at hc
  · intro hn
    exact h3 (by simpa [List.range_eq_nil] using hn)

theorem hoverFinal_zero_one : hoverFinal 0 1 zTel zTel zTel = some 38250 := by
  rw [hoverFinal]
  have hz : zTel = (fun _ => (0 : ℚ)) := rfl
  rw [hz]
  have h := (hoverRun_zero_error programGains step_time base_thrust 0
    (fun _ => (0 : ℚ)) (fun _ => (0 : ℚ)) (hoverTicks 1 step_time)).2.2
  rw [h (by rw [hoverTicks_one]; omega)]
  norm_num [base_thrust]

theorem landingCount_eq_zero (v : ℚ) (h : v ≤ 20000) : landingCount v = 0 :=
  if_neg (not_lt.mpr h)

theorem landingCount_pos (v : ℚ) (h : 20000 < v) : 1 ≤ landingCount v := by
  rw [landingCount, if_pos h]
  have h1 : (0 : ℤ) < ⌈(v - 20000) / 75⌉ :=
    Int.ceil_pos.mpr (div_pos (by linarith) (by norm_num))
  omega

theorem landingCount_succ (v : ℚ) (h : 20000 < v) :
    landingCount v = landingCount (v - 75) + 1 := by
  have h1 : (0 : ℤ) < ⌈(v - 20000) / 75⌉ :=
    Int.ceil_pos.mpr (div_pos (by linarith) (by norm_num))
  rw [landingCount, if_pos h, landingCount]
  by_cases h75 : 20000 < v - 75
  · rw [if_pos h75]
    have e : (v - 75 - 20000) / 75 = (v - 20000) / 75 - 1 := by ring
    rw [e, Int.ceil_sub_one]
    omega
  · rw [if_neg h75]
    have hle : (v - 20000) / 75 ≤ 1 := by
      rw [div_le_one (by norm_num)]
      linarith [not_lt.mp h75]
    have h2 : ⌈(v - 20000) / 75⌉ ≤ 1 := by
      rw [Int.ceil_le]
      exact_mod_cast hle
    omega

theorem landingSends_eq_map (v : ℚ) :
    landingSends v
      = (List.range (landingCount v)).map
          (fun k : ℕ => v - 75 * ((k : ℚ) + 1)) := by
  suffices h : ∀ (n : ℕ) (w : ℚ), landingCount w = n →
      landingSends w = (List.range n).map (fun k : ℕ => w - 75 * ((k : ℚ) + 1)) by
    rw [h (landingCount v) v rfl]
  intro n
  induction n with
  | zero =>
    intro w hn
    have hw : ¬ 20000 < w := by
      intro hc
      have := landingCount_pos w hc
      omega
    rw [landingSends, dif_neg hw, List.range_zero, List.map_nil]
  | succ n ih =>
    intro w hn
    have hw : 20000 < w := by
      by_contra hc
      rw [landingCount_eq_zero w (not_lt.mp hc)] at hn
      omega
    have h2 : landingCount (w - 75) = n := by
      have := landingCount_succ w hw
      omega
    rw [landingSends, dif_pos hw, ih (w - 75) h2, List.range_succ_eq_map,
      List.map_cons, List.map_map]
    congr 1
    · push_cast
      ring
    · apply List.map_congr_left
      intro k _
      simp only [Function.comp_apply, Nat.succ_eq_add_one]
      push_cast
      ring

theorem landingSends_length (v : ℚ) :
    (landingSends v).length = landingCount v := by
  rw [landingSends_eq_map, List.length_map, List.length_range]

theorem landingCount_cast (v : ℚ) (h : 20000 < v) :
    ((landingCount v : ℕ) : ℚ) = (⌈(v - 20000) / 75⌉ : ℚ) := by
  have h1 : (0 : ℤ) < ⌈(v - 20000) / 75⌉ :=
    Int.ceil_pos.mpr (div_pos (by linarith) (by norm_num))
  rw [landingCount, if_pos h]
  exact_mod_cast Int.toNat_of_nonneg (by omega)

theorem landing_final_bounds (v : ℚ) (h : 20000 < v) :
    19925 < v - 75 * (landingCount v : ℚ)
    ∧ v - 75 * (landingCount v : ℚ) ≤ 20000 := by
  have hle : (v - 20000) / 75 ≤ (⌈(v - 20000) / 75⌉ : ℚ) := Int.le_ceil _
  have hlt : (⌈(v - 20000) / 75⌉ : ℚ) < (v - 20000) / 75 + 1 :=
    Int.ceil_lt_add_one _
  rw [landingCount_cast v h]
  constructor
  · have h2 : 75 * (⌈(v - 20000) / 75⌉ : ℚ) < v - 20000 + 75 := by
      calc 75 * (⌈(v - 20000) / 75⌉ : ℚ)
          < 75 * ((v - 20000) / 75 + 1) :=
            mul_lt_mul_of_pos_left hlt (by norm_num)
        _ = v - 20000 + 75 := by ring
    linarith
  · have h2 : v - 20000 ≤ 75 * (⌈(v - 20000) / 75⌉ : ℚ) := by
      calc v - 20000 = 75 * ((v - 20000) / 75) := by ring
        _ ≤ 75 * (⌈(v - 20000) / 75⌉ : ℚ) :=
            mul_le_mul_of_nonneg_left hle (by norm_num)
    linarith

theorem landing_getLast (v : ℚ) (h : 20000 < v) :
    (landingSends v).getLast? = some (v - 75 * (landingCount v : ℚ)) := by
  obtain ⟨n, hn⟩ : ∃ n, landingCount v = n + 1 :=
    ⟨landingCount v - 1, by have := landingCount_pos v h; omega⟩
  rw [landingSends_eq_map, hn, List.range_succ, List.map_append]
  simp only [List.map_cons, List.map_nil, List.getLast?_concat]
  congr 1
  push_cast
  ring

theorem landing_dropLast (v : ℚ) (h : 20000 < v) :
    ∀ q ∈ (landingSends v).dropLast, 20000 < q := by
  obtain ⟨n, hn⟩ : ∃ n, landingCount v = n + 1 :=
    ⟨landingCount v - 1, by have := landingCount_pos v h; omega⟩
  rw [landingSends_eq_map, hn, List.range_succ, List.map_append]
  simp only [List.map_cons, List.map_nil, List.dropLast_concat]
  intro q hq
  rcases List.mem_map.mp hq with ⟨k, hk, rfl⟩
  have hkn : k < n := List.mem_range.mp hk
  have hcn : (⌈(v - 20000) / 75⌉).toNat = n + 1 := by
    rw [landingCount, if_pos h] at hn
    exact hn
  have h1 : (0 : ℤ) < ⌈(v - 20000) / 75⌉ :=
    Int.ceil_pos.mpr (div_pos (by linarith) (by norm_num))
  have hk1 : ((k : ℚ) + 1) ≤ (⌈(v - 20000) / 75⌉ : ℚ) - 1 := by
    have h2 : (k : ℤ) + 1 ≤ ⌈(v - 20000) / 75⌉ - 1 := by omega
    exact_mod_cast h2
  have hlt : (⌈(v - 20000) / 75⌉ : ℚ) < (v - 20000) / 75 + 1 :=
    Int.ceil_lt_add_one _
  have h3 : 75 * ((k : ℚ) + 1) < v - 20000 := by
    have h4 : ((k : ℚ) + 1) < (v - 20000) / 75 := by linarith
    calc 75 * ((k : ℚ) + 1) < 75 * ((v - 20000) / 75) :=
          mul_lt_mul_of_pos_left h4 (by norm_num)
      _ = v - 20000 := by ring
  linarith

theorem landingSends_chain (v : ℚ) (i : ℕ)
    (h : i + 1 < (landingSends v).length) :
    (landingSends v)[i + 1]? = ((landingSends v)[i]?).map (fun q => q - 75) := by
  rw [landingSends_eq_map] at h ⊢
  rw [List.length_map, List.length_range] at h
  rw [List.getElem?_map, List.getElem?_map, List.getElem?_range h,
    List.getElem?_range (by omega)]
  simp only [Option.map_some']
  congr 1
  push_cast
  ring

theorem foldl_pushSample (xs : List ℚ) :
    ∀ w : List ℚ, w ≠ [] → xs.foldl pushSample w = (w ++ xs).drop xs.length := by
  induction xs with
  | nil => intro w _; simp
  | cons x xs ih =>
    intro w hw
    obtain ⟨a, t, rfl⟩ : ∃ a t, w = a :: t := by
      cases w with
      | nil => exact absurd rfl hw
      | cons a t => exact ⟨a, t, rfl⟩
    rw [List.foldl_cons, ih (pushSample (a :: t) x) (by simp [pushSample])]
    simp only [pushSample, List.tail_cons, List.length_cons, List.cons_append,
      List.drop_succ_cons, List.append_assoc, List.singleton_append,
      List.nil_append]

theorem runSmoother_eq_drop (xs : List ℚ) :
    runSmoother xs = (altitude_history0 ++ xs).drop xs.length := by
  rw [runSmoother, foldl_pushSample xs altitude_history0 (by simp [altitude_history0])]

theorem runSmoother_length (xs : List ℚ) : (runSmoother xs).length = 5 := by
  rw [runSmoother_eq_drop, List.length_drop, List.length_append]
  simp [altitude_history0]

/-! ### Claims -/

/-- C1: the Hovering phase executes exactly `floor(operation_time/step_time)`
control ticks (one flight-record entry per tick), for every telemetry
arrival pattern; in particular with `operation_time = 10` and
`step_time = 0.01` it runs exactly 1000 ticks. -/
theorem C1_hover_tick_count :
    (∀ (target : ℚ) (opTime : ℤ) (meas thr alt : ℕ → ℚ),
        (flightRecord target opTime meas thr alt).length
          = hoverTicks opTime step_time)
    ∧ (∀ opTime : ℤ, 0 ≤ opTime →
        (hoverTicks opTime step_time : ℤ) = ⌊(opTime : ℚ) / step_time⌋)
    ∧ hoverTicks 10 step_time = 1000 := by
  refine ⟨?_, ?_, hoverTicks_ten⟩
  · intro target opTime meas thr alt
    rw [flightRecord]
    exact hoverRun_record_length _ _ _ _ _ _ _ _
  · intro opTime h
    have hq : (0 : ℚ) ≤ (opTime : ℚ) / step_time := by
      apply div_nonneg
      · exact_mod_cast h
      · norm_num [step_time]
    rw [hoverTicks, pyInt_nonneg_floor _ hq,
      Int.toNat_of_nonneg (Int.floor_nonneg.mpr hq)]

/-- Witness for C1 at `operation_time = 10`. -/
theorem C1_hover_tick_count_witness :
    0 ≤ (10 : ℤ)
    ∧ (hoverTicks 10 step_time : ℤ) = ⌊((10 : ℤ) : ℚ) / step_time⌋ :=
  ⟨by norm_num, C1_hover_tick_count.2.1 10 (by norm_num)⟩

/-- C2 (amended): after the flight ends the flight record contains exactly
`floor(operation_time/step_time)` entries, all appended during Hovering;
the Landing phase sends `ceil((final_output - 20000)/75)` commands but
appends no entries to the record. -/
theorem C2_flight_record_entries :
    ∀ (target : ℚ) (opTime : ℤ) (meas thr alt : ℕ → ℚ),
      (flightRecord target opTime meas thr alt).length
        = hoverTicks opTime step_time
      ∧ ∀ v : ℚ, hoverFinal target opTime meas thr alt = some v →
          runFlight target opTime meas thr alt
            = some ⟨flightRecord target opTime meas thr alt, landingSends v, v⟩
          ∧ (landingSends v).length = landingCount v := by
  intro target opTime meas thr alt
  refine ⟨?_, fun v hv => ⟨?_, landingSends_length v⟩⟩
  · rw [flightRecord]
    exact hoverRun_record_length _ _ _ _ _ _ _ _
  · unfold runFlight
    rw [hv]

/-- Counterexample for C2 as stated: with target 0, one second of hover and
all-zero telemetry the record has 100 entries while the claim predicts
100 + 244 (the 244 Landing ticks append nothing). -/
theorem C2_flight_record_entries_counterexample :
    (flightRecord 0 1 zTel zTel zTel).length = 100
    ∧ hoverFinal 0 1 zTel zTel zTel = some 38250
    ∧ landingCount 38250 = 244
    ∧ (100 : ℕ) ≠ 100 + 244 := by
  refine ⟨?_, hoverFinal_zero_one, landingCount_38250, by omega⟩
  rw [flightRecord, hoverRun_record_length, hoverTicks_one]

/-- Witness for C2 (amended) at a concrete configuration. -/
theorem C2_flight_record_entries_witness :
    hoverFinal 0 1 zTel zTel zTel = some 38250
    ∧ (landingSends 38250).length = landingCount 38250 :=
  ⟨hoverFinal_zero_one,
    ((C2_flight_record_entries 0 1 zTel zTel zTel).2 38250
      hoverFinal_zero_one).2⟩

/-- C3 (amended): the gain derivation faults (ZeroDivisionError, modelled as
`none`) exactly at `tu = 0`; for `tu < 0` it silently returns gains computed
from the non-positive `tu`; the program itself only derives gains from the
constant `tu = 3.116 > 0`. -/
theorem C3_gain_guard :
    (∀ kuA tuA : ℚ, derive kuA tuA = none ↔ tuA = 0)
    ∧ (0 : ℚ) < tu
    ∧ derive ku tu = some programGains := by
  refine ⟨?_, by norm_num [tu], ?_⟩
  · intro kuA tuA
    simp only [derive]
    by_cases h : (0.5 : ℚ) * tuA = 0
    · rw [if_pos h]
      constructor
      · intro _
        rcases mul_eq_zero.mp h with h5 | h0
        · norm_num at h5
        · exact h0
      · intro _
        rfl
    · rw [if_neg h]
      constructor
      · intro hc
        exact absurd hc (Option.some_ne_none _)
      · intro h0
        exact absurd (by rw [h0]; ring) h
  · simp only [derive, programGains, kp, ki, kd, ti, td]
    rw [if_neg (by norm_num [tu])]

/-- Counterexample for C3 as stated: at `(ku, tu) = (16000, -1)` the
derivation neither rejects nor clamps — it returns the gain set computed
from the negative `tu`. -/
theorem C3_gain_guard_counterexample :
    (-1 : ℚ) < 0 ∧ derive 16000 (-1) = some ⟨9600, -22400, -1400⟩ := by
  constructor
  · norm_num
  · rw [derive]
    norm_num [GainSet.mk.injEq]

/-- C4: for every PID tick, whatever the gains, timing, base output, target,
measurement and accumulated state, the commanded output lies in
`[0, 60000]`. -/
theorem C4_output_clamped :
    ∀ (g : GainSet) (dt base target measured : ℚ) (s : PidState),
      0 ≤ (pidStep g dt base target measured s).1
      ∧ (pidStep g dt base target measured s).1 ≤ 60000 := by
  intro g dt base target measured s
  simp only [pidStep]
  exact ⟨le_max_right _ _, max_le (min_le_right _ _) (by norm_num)⟩

/-- C5 (amended): a malformed invocation never opens a connection and always
surfaces an error, but the exit status is non-zero only for two arguments
that fail numeric parsing (uncaught ValueError); a wrong argument count
prints its message and exits with status zero. -/
theorem C5_bad_args :
    ∀ args : List String, malformedArgs args = true →
      connectionOpened (pyMain args) = false
      ∧ reportsError (pyMain args) = true
      ∧ (pyMain args = MainResult.valueErrorCrash → exitCode (pyMain args) = 1)
      ∧ (args.length ≠ 2 →
          pyMain args = MainResult.badArgsExit
          ∧ exitCode (pyMain args) = 0) := by
  intro args h
  rcases args with _ | ⟨a0, _ | ⟨a1, _ | ⟨a2, rest⟩⟩⟩
  · exact ⟨rfl, rfl, fun hc => by simp [pyMain] at hc, fun _ => ⟨rfl, rfl⟩⟩
  · exact ⟨rfl, rfl, fun hc => by simp [pyMain] at hc, fun _ => ⟨rfl, rfl⟩⟩
  · rcases hf : pyParseFloat a0 with _ | t
    · refine ⟨?_, ?_, fun _ => ?_, fun hlen => absurd rfl hlen⟩
      · simp [pyMain, hf, connectionOpened]
      · simp [pyMain, hf, reportsError]
      · simp [pyMain, hf, exitCode]
    · rcases hi : pyParseInt a1 with _ | n
      · refine ⟨?_, ?_, fun _ => ?_, fun hlen => absurd rfl hlen⟩
        · simp [pyMain, hf, hi, connectionOpened]
        · simp [pyMain, hf, hi, reportsError]
        · simp [pyMain, hf, hi, exitCode]
      · exfalso
        simp [malformedArgs, hf, hi] at h
  · exact ⟨rfl, rfl, fun hc => by simp [pyMain] at hc, fun _ => ⟨rfl, rfl⟩⟩

/-- Counterexample for C5 as stated: the one-argument invocation is
malformed, prints its message, opens no connection — and exits with
status zero, not a non-zero status. -/
theorem C5_bad_args_counterexample :
    (["0.5"] : List String).length ≠ 2
    ∧ pyMain ["0.5"] = MainResult.badArgsExit
    ∧ exitCode (pyMain ["0.5"]) = 0 :=
  ⟨by decide, rfl, rfl⟩

/-- Witness for C5 (amended) at a concrete malformed invocation. -/
theorem C5_bad_args_witness :
    malformedArgs ["0.5"] = true
    ∧ connectionOpened (pyMain ["0.5"]) = false
    ∧ reportsError (pyMain ["0.5"]) = true :=
  ⟨rfl, (C5_bad_args ["0.5"] rfl).1, (C5_bad_args ["0.5"] rfl).2.1⟩

/-- C6: the Landing loop terminates after exactly
`ceil((start - 20000)/75)` ticks (at most 534 from any start value at or
below 60000), and the sent output strictly decreases by the fixed step 75
from one send to the next. -/
theorem C6_landing_terminates :
    ∀ v : ℚ,
      (landingSends v).length = landingCount v
      ∧ (v ≤ 60000 → (landingSends v).length ≤ 534)
      ∧ ∀ i : ℕ, i + 1 < (landingSends v).length →
          (landingSends v)[i + 1]?
            = ((landingSends v)[i]?).map (fun q => q - 75) := by
  intro v
  refine ⟨landingSends_length v, ?_, fun i hi => landingSends_chain v i hi⟩
  intro hv
  rw [landingSends_length]
  by_cases h : 20000 < v
  · rw [landingCount, if_pos h]
    have h1 : ⌈(v - 20000) / 75⌉ ≤ 534 := by
      rw [Int.ceil_le, div_le_iff₀ (by norm_num)]
      push_cast
      linarith
    omega
  · rw [landingCount, if_neg h]
    omega

/-- Witness for C6 at the largest clamped start value. -/
theorem C6_landing_terminates_witness :
    (60000 : ℚ) ≤ 60000 ∧ (landingSends 60000).length ≤ 534 :=
  ⟨le_refl _, (C6_landing_terminates 60000).2.1 (le_refl _)⟩

/-- C7 (amended): the derivation computes `kp = 0.6 ku`,
`ki = 0.7 (ku / (0.5 tu))` and `kd = 0.7 (ku (0.125 tu))` whenever
`tu` is nonzero; at `(16000, 3.116)` this gives `kp = 9600`,
`ki = 5600000/779 = 7188.7034...` (not `7183.568677...`) and
`kd = 21812/5 = 4362.4`. -/
theorem C7_gain_values :
    (∀ kuA tuA : ℚ, tuA ≠ 0 →
        derive kuA tuA
          = some ⟨0.6 * kuA, 0.7 * (kuA / (0.5 * tuA)),
              0.7 * (kuA * (0.125 * tuA))⟩)
    ∧ derive 16000 3.116 = some ⟨9600, 5600000 / 779, 21812 / 5⟩ := by
  constructor
  · intro kuA tuA h
    simp only [derive]
    rw [if_neg (mul_ne_zero (by norm_num) h)]
  · rw [derive]
    norm_num [GainSet.mk.injEq]

/-- Counterexample for C7 as stated: the exact integral gain at
`(16000, 3.116)` is `5600000/779`, which lies strictly between 7188 and
7189 and is not the claimed `7183.568677...`. -/
theorem C7_gain_values_counterexample :
    derive 16000 3.116 = some ⟨9600, 5600000 / 779, 21812 / 5⟩
    ∧ (5600000 / 779 : ℚ) ≠ 7183568677 / 1000000
    ∧ (7188 : ℚ) < 5600000 / 779
    ∧ (5600000 / 779 : ℚ) < 7189 := by
  refine ⟨?_, by norm_num, by norm_num, by norm_num⟩
  rw [derive]
  norm_num [GainSet.mk.injEq]

/-- Witness for C7 (amended) at the program's tuning pair. -/
theorem C7_gain_values_witness :
    (3.116 : ℚ) ≠ 0
    ∧ derive 16000 3.116
        = some ⟨0.6 * 16000, 0.7 * (16000 / (0.5 * 3.116)),
            0.7 * (16000 * (0.125 * 3.116))⟩ :=
  ⟨by norm_num, C7_gain_values.1 16000 3.116 (by norm_num)⟩

/-- C8: starting from the initial controller state, if the measured value
equals the target on every tick then for every number of ticks the
integral accumulator (and the previous error) stays exactly zero and every
recorded commanded output equals the base output, for any base output
inside the clamp range. -/
theorem C8_zero_error_invariant :
    ∀ (g : GainSet) (dt base target : ℚ) (thr alt : ℕ → ℚ) (n : ℕ),
      0 ≤ base → base ≤ 60000 →
      (hoverRun g dt base target (fun _ => target) thr alt n).2.1
          = (⟨0, 0⟩ : PidState)
      ∧ ∀ r ∈ (hoverRun g dt base target (fun _ => target) thr alt n).2.2,
          r.1 = base := by
  intro g dt base target thr alt n h0 h60
  obtain ⟨h1, h2, _⟩ := hoverRun_zero_error g dt base target thr alt n
  have hcl : max (min base 60000) 0 = base := by
    rw [min_eq_left h60, max_eq_left h0]
  exact ⟨h1, fun r hr => by rw [h2 r hr, hcl]⟩

/-- Witness for C8 with the program's own gains and base thrust. -/
theorem C8_zero_error_invariant_witness :
    0 ≤ base_thrust ∧ base_thrust ≤ 60000
    ∧ (hoverRun programGains step_time base_thrust 0 zTel zTel zTel 3).2.1
        = (⟨0, 0⟩ : PidState) :=
  ⟨by norm_num [base_thrust], by norm_num [base_thrust],
    (C8_zero_error_invariant programGains step_time base_thrust 0 zTel zTel 3
      (by norm_num [base_thrust]) (by norm_num [base_thrust])).1⟩

/-- C9: the smoothing window always holds exactly the five most recent
samples in FIFO order (positions not yet pushed hold the initial zeros:
the window equals the last five entries of zeros-then-samples), the
smoothed altitude is the arithmetic mean of the window's current contents,
and each push evicts exactly the oldest entry. -/
theorem C9_smoother :
    ∀ xs : List ℚ,
      runSmoother xs = (altitude_history0 ++ xs).drop xs.length
      ∧ (runSmoother xs).length = 5
      ∧ averageAfter xs = (runSmoother xs).sum / 5
      ∧ ∀ (a x : ℚ) (t : List ℚ), pushSample (a :: t) x = t ++ [x] := by
  intro xs
  refine ⟨runSmoother_eq_drop xs, runSmoother_length xs, ?_, fun a x t => rfl⟩
  rw [averageAfter, npMean, runSmoother_length]
  norm_num

/-- C10: the Landing phase decrements before each send: it sends nothing if
the carried-forward output is already at or below 20000, and otherwise
sends `v - 75, v - 150, ...`, ending with exactly one value at or below the
20000 floor, that value lying in `(19925, 20000]`. -/
theorem C10_landing_commands :
    ∀ v : ℚ,
      landingSends v
        = (List.range (landingCount v)).map
            (fun k : ℕ => v - 75 * ((k : ℚ) + 1))
      ∧ (v ≤ 20000 → landingSends v = [])
      ∧ (20000 < v →
          19925 < v - 75 * (landingCount v : ℚ)
          ∧ v - 75 * (landingCount v : ℚ) ≤ 20000
          ∧ (landingSends v).getLast? = some (v - 75 * (landingCount v : ℚ))
          ∧ ∀ q ∈ (landingSends v).dropLast, 20000 < q) := by
  intro v
  refine ⟨landingSends_eq_map v, ?_, ?_⟩
  · intro hv
    rw [landingSends, dif_neg (not_lt.mpr hv)]
  · intro hv
    exact ⟨(landing_final_bounds v hv).1, (landing_final_bounds v hv).2,
      landing_getLast v hv, landing_dropLast v hv⟩

/-- Witness for C10 at a concrete start value just above the floor. -/
theorem C10_landing_commands_witness :
    (20000 : ℚ) < 20100
    ∧ 19925 < (20100 : ℚ) - 75 * (landingCount 20100 : ℚ)
    ∧ (20100 : ℚ) - 75 * (landingCount 20100 : ℚ) ≤ 20000 :=
  ⟨by norm_num, ((C10_landing_commands 20100).2.2 (by norm_num)).1,
    ((C10_landing_commands 20100).2.2 (by norm_num)).2.1⟩
